import Mathlib

/-!
Verification of the rclcpp hierarchical logger handle
(`rclcpp/include/rclcpp/logger.hpp`).

The header defines the `Logger` value type (an optional shared name), its
two private constructors (dummy and named), the inline body of `get_name`,
the `Level` enumeration, and the `RCLCPP_LOGGING_ENABLED` preprocessor
switch.  The bodies of `get_logger`, `Logger::get_child`,
`Logger::set_level` and `Logger::get_effective_level` live in a translation
unit that is not part of the source tree here; those operations are
modelled from the specification, as marked on each definition.
-/

/-- The severity enumeration `rclcpp::Logger::Level`
(source lines 96-104).  The numeric backing values come from the external
`rcutils` severity enumeration that the source names
(`RCUTILS_LOG_SEVERITY_UNSET`, ...). -/
inductive Level where
  | Unset
  | Debug
  | Info
  | Warn
  | Error
  | Fatal
deriving DecidableEq

/-- The numeric value backing each member of `Level`, i.e. the
`RCUTILS_LOG_SEVERITY_*` constants the enum members are assigned to
in the source. -/
def severityValue : Level → Int
  | Level.Unset => 0
  | Level.Debug => 10
  | Level.Info => 20
  | Level.Warn => 30
  | Level.Error => 40
  | Level.Fatal => 50

/-- The raw integer values recognized as members of the severity
enumeration `{Unset, Debug, Info, Warn, Error, Fatal}`. -/
def recognizedSeverityValues : List Int := [0, 10, 20, 30, 40, 50]

/-- Partial inverse of `severityValue`: decodes a raw integer into the
enumeration member it denotes, or `none` when the integer is outside the
recognized enumeration. -/
def levelOfValue (v : Int) : Option Level :=
  if v = 0 then some Level.Unset
  else if v = 10 then some Level.Debug
  else if v = 20 then some Level.Info
  else if v = 30 then some Level.Warn
  else if v = 40 then some Level.Error
  else if v = 50 then some Level.Fatal
  else none

/-- Modelled from the spec: the External Level Registry collaborator
(spec section 3 and section 6), whose implementation (`rcutils` logging) is
outside this source tree.  It is keyed by exact logger name and holds an
optional explicit severity per name — `Level.Unset` is the sentinel for
"no explicit level recorded here" — plus a single process-wide default
level. -/
structure Registry where
  entries : String → Level
  default_level : Level

/-- Modelled from the spec: the registry's set-by-name operation
(`set(name, level)` of the collaborator contract, spec section 6). -/
def Registry.set (r : Registry) (name : String) (lvl : Level) : Registry :=
  ⟨fun m => if m = name then lvl else r.entries m, r.default_level⟩

/-- The `rclcpp::Logger` handle (source lines 92-188): an optional shared
name (`name_`, a null pointer for the dummy logger) together with the
`logger_sublogger_pairname_` member, default-initialized to null. -/
structure Logger where
  name_ : Option String
  logger_sublogger_pairname_ : Option (String × String)

/-- The dummy-logger constructor `Logger() : name_(nullptr)`
(source lines 115-116). -/
def Logger.dummy : Logger := ⟨none, none⟩

/-- The named-logger constructor `Logger(name) : name_(new std::string(name))`
(source lines 122-123). -/
def Logger.named (name : String) : Logger := ⟨some name, none⟩

/-- `Logger::get_name` (source lines 136-143): returns null when `name_`
is null, otherwise the stored name. -/
def Logger.get_name (l : Logger) : Option String :=
  match l.name_ with
  | none => none
  | some n => some n

/-- The preprocessor switch at source lines 38-40:
`RCLCPP_LOGGING_ENABLED` is defined (as `1`) exactly when the build
defines `RCLCPP_LOGG_MIN_SEVERITY_NONE`; otherwise it is left undefined.
The argument is whether `RCLCPP_LOGG_MIN_SEVERITY_NONE` is defined, the
result is the definition (if any) given to `RCLCPP_LOGGING_ENABLED`. -/
def RCLCPP_LOGGING_ENABLED (logg_min_severity_none_defined : Bool) : Option Nat :=
  if logg_min_severity_none_defined then some 1 else none

/-- Modelled from the spec: the factory `rclcpp::get_logger` (declared at
source lines 64-66, body not in the source tree).  Spec section 4.2: when
logging is administratively disabled it returns a dummy handle
unconditionally, ignoring the name; otherwise a named handle wrapping the
name verbatim. -/
def get_logger (enabled : Bool) (name : String) : Logger :=
  if enabled then Logger.named name else Logger.dummy

/-- Modelled from the spec: `Logger::get_child` (declared at source lines
157-159, body not in the source tree).  Spec section 4.1: a dummy handle
yields another dummy handle; a named handle with name `P` yields a named
handle with name `P ++ "." ++ suffix`, with no other side effect (in
particular the registry is neither consulted nor updated, which is why
this function does not take a registry at all). -/
def Logger.get_child (l : Logger) (suffix : String) : Logger :=
  match l.name_ with
  | none => Logger.dummy
  | some n => Logger.named (n ++ "." ++ suffix)

/-- The error conditions of `Logger::set_level` (source lines 161-169):
`RCLInvalidArgument` for an invalid level, `RCLError` otherwise. -/
inductive SetLevelError where
  | InvalidArgument
  | OperationError
deriving DecidableEq

/-- Modelled from the spec: `Logger::set_level` (declared at source lines
167-169, body not in the source tree).  Spec sections 4.1 and 7: a raw
severity value outside the recognized enumeration fails with
`InvalidArgument` and leaves the registry unchanged; for a named handle a
recognized value is recorded in the registry under the handle's exact
name; for a dummy handle the null name is forwarded into the registry's
own validation, which rejects it.  The registry is threaded explicitly:
the second component of the result is the registry after the call. -/
def Logger.set_level (l : Logger) (severity : Int) (r : Registry) :
    Except SetLevelError Unit × Registry :=
  match levelOfValue severity with
  | none => (Except.error SetLevelError.InvalidArgument, r)
  | some lvl =>
    match l.name_ with
    | none => (Except.error SetLevelError.OperationError, r)
    | some n => (Except.ok (), r.set n lvl)

/-- Modelled from the spec: splitting a name's characters at the `.`
separators (spec section 3, "a logger name is a string composed of
dot-separated segments").  Always returns a non-empty list of segments. -/
def splitDots : List Char → List (List Char)
  | [] => [[]]
  | c :: cs =>
    if c = '.' then [] :: splitDots cs
    else
      match splitDots cs with
      | [] => [[c]]
      | seg :: rest => (c :: seg) :: rest

/-- Modelled from the spec: rejoining character segments with `.`
separators, the inverse of `splitDots`. -/
def joinDots : List (List Char) → List Char
  | [] => []
  | [seg] => seg
  | seg :: seg2 :: rest => seg ++ '.' :: joinDots (seg2 :: rest)

/-- Modelled from the spec: the dot-separated segments `[s1, ..., sn]` of
a logger name (spec section 3). -/
def nameSegments (n : String) : List String :=
  (splitDots n.data).map (fun cs => String.mk cs)

/-- Modelled from the spec: joining segments back into a dotted name. -/
def dotJoin : List String → String
  | [] => ""
  | [s] => s
  | s :: s2 :: rest => s ++ "." ++ dotJoin (s2 :: rest)

/-- Modelled from the spec: the ancestor chain for effective-level
resolution (spec section 3): for a name with segments `[s1, ..., sn]` the
chain is `[s1.s2...sn, s1.s2...s(n-1), ..., s1]` — the full name first,
then successively shorter prefixes obtained by stripping the last
dot-delimited segment, down to the first segment. -/
def ancestorChain (n : String) : List String :=
  (List.range (nameSegments n).length).map
    (fun k => dotJoin ((nameSegments n).take ((nameSegments n).length - k)))

/-- Modelled from the spec: the registry walk of the effective-level
resolution algorithm (spec section 4.1, steps 2-5): query each candidate
name in order, return the first real (non-Unset) severity found, and fall
back to the process-wide default when the chain is exhausted. -/
def lookupChain (r : Registry) : List String → Level
  | [] => r.default_level
  | a :: rest =>
    if r.entries a = Level.Unset then lookupChain r rest else r.entries a

/-- Modelled from the spec: `Logger::get_effective_level` (declared at
source lines 185-187, body not in the source tree).  Spec section 4.1:
walk the handle's ancestor chain against the registry; a dummy handle has
no name to look up (its null name is rejected by the registry, an
`RCLError`), modelled as `none`. -/
def Logger.get_effective_level (l : Logger) (r : Registry) : Option Level :=
  match l.name_ with
  | none => none
  | some n => some (lookupChain r (ancestorChain n))

/-- Modelled from the spec: the observable operations of a handle, used to
state that no operation changes the receiver's name.  Handles are
value-semantics and immutable once constructed (spec section 3, data
model invariant); only `set_level` touches any state at all, and that
state is the external registry, threaded here explicitly. -/
inductive LoggerOp where
  | opGetName
  | opGetChild (suffix : String)
  | opSetLevel (severity : Int)
  | opGetEffectiveLevel

/-- Modelled from the spec: the receiver and registry state after one
operation on a handle (spec sections 3 and 4.1: no operation mutates the
receiver; `set_level` may update the external registry). -/
def applyOp (l : Logger) (r : Registry) : LoggerOp → Logger × Registry
  | LoggerOp.opGetName => (l, r)
  | LoggerOp.opGetChild _ => (l, r)
  | LoggerOp.opSetLevel sv => (l, (l.set_level sv r).2)
  | LoggerOp.opGetEffectiveLevel => (l, r)

/-- A concrete registry for witnesses: the scenario of spec section 8,
`{"robot": Info, "robot.sensor": Debug}` with default `Warn`. -/
def robotRegistry : Registry :=
  ⟨fun n =>
    if n = "robot" then Level.Info
    else if n = "robot.sensor" then Level.Debug
    else Level.Unset,
   Level.Warn⟩

/-- A concrete registry for witnesses: no explicit level anywhere,
default `Warn`. -/
def emptyRegistry : Registry := ⟨fun _ => Level.Unset, Level.Warn⟩

-- Helper lemmas ------------------------------------------------------------

theorem splitDots_ne_nil (cs : List Char) : splitDots cs ≠ [] := by
  cases cs with
  | nil => simp [splitDots]
  | cons c cs =>
    by_cases hc : c = '.'
    · simp [splitDots, hc]
    · simp only [splitDots, hc, if_false]
      cases splitDots cs with
      | nil => simp
      | cons seg rest => simp

theorem joinDots_splitDots (cs : List Char) : joinDots (splitDots cs) = cs := by
  induction cs with
  | nil => rfl
  | cons c cs ih =>
    by_cases hc : c = '.'
    · subst hc
      simp only [splitDots, if_pos rfl]
      rcases h : splitDots cs with _ | ⟨seg, rest⟩
      · exact absurd h (splitDots_ne_nil cs)
      · rw [h] at ih
        simp [joinDots, ih]
    · simp only [splitDots, hc, if_false]
      rcases h : splitDots cs with _ | ⟨seg, rest⟩
      · exact absurd h (splitDots_ne_nil cs)
      · rw [h] at ih
        cases rest with
        | nil => simp_all [joinDots]
        | cons r1 r2 => simp_all [joinDots]

theorem data_dotJoin (l : List (List Char)) :
    (dotJoin (l.map (fun cs => String.mk cs))).data = joinDots l := by
  induction l with
  | nil => rfl
  | cons s rest ih =>
    cases rest with
    | nil => rfl
    | cons t r2 =>
      simp only [List.map, dotJoin, joinDots]
      rw [String.data_append, String.data_append]
      rw [List.map] at ih
      rw [ih]
      simp

theorem dotJoin_nameSegments (n : String) : dotJoin (nameSegments n) = n := by
  apply String.ext
  rw [nameSegments, data_dotJoin, joinDots_splitDots]

theorem nameSegments_ne_nil (n : String) : nameSegments n ≠ [] := by
  rw [nameSegments]
  intro h
  exact splitDots_ne_nil n.data (List.map_eq_nil_iff.mp h)

theorem get_effective_level_named (n : String) (r : Registry) :
    (Logger.named n).get_effective_level r =
      some (lookupChain r (ancestorChain n)) := rfl

theorem ancestorChain_headq (n : String) :
    (ancestorChain n).head? = some n := by
  rcases hsegs : nameSegments n with _ | ⟨s, t⟩
  · exact absurd hsegs (nameSegments_ne_nil n)
  · rw [ancestorChain, hsegs]
    simp only [List.length_cons, List.range_succ_eq_map, List.map_cons,
      List.head?_cons, Nat.sub_zero]
    rw [show t.length + 1 = (s :: t).length from rfl, List.take_length,
      ← hsegs, dotJoin_nameSegments]

theorem ancestorChain_head_eq (n a : String) (rest : List String)
    (hc : ancestorChain n = a :: rest) : a = n := by
  have h := ancestorChain_headq n
  rw [hc, List.head?_cons] at h
  exact Option.some.inj h

theorem ancestorChain_head (n : String) :
    ∃ rest, ancestorChain n = n :: rest := by
  rcases hc : ancestorChain n with _ | ⟨a, rest⟩
  · have h := ancestorChain_headq n
    rw [hc] at h
    exact absurd h (by simp)
  · have h := ancestorChain_head_eq n a rest hc
    subst h
    exact ⟨rest, rfl⟩

theorem lookupChain_append_unset (r : Registry) (l1 l2 : List String)
    (h : ∀ b ∈ l1, r.entries b = Level.Unset) :
    lookupChain r (l1 ++ l2) = lookupChain r l2 := by
  induction l1 with
  | nil => rfl
  | cons a l1 ih =>
    have ha : r.entries a = Level.Unset := h a (List.mem_cons_self a l1)
    rw [List.cons_append, lookupChain, if_pos ha]
    exact ih (fun b hb => h b (List.mem_cons_of_mem a hb))

theorem lookupChain_all_unset (r : Registry) (l : List String)
    (h : ∀ b ∈ l, r.entries b = Level.Unset) :
    lookupChain r l = r.default_level := by
  induction l with
  | nil => rfl
  | cons a l ih =>
    rw [lookupChain, if_pos (h a (List.mem_cons_self a l))]
    exact ih (fun b hb => h b (List.mem_cons_of_mem a hb))

theorem levelOfValue_severityValue (L : Level) :
    levelOfValue (severityValue L) = some L := by
  cases L <;> rfl

theorem levelOfValue_eq_none (sv : Int) (h : sv ∉ recognizedSeverityValues) :
    levelOfValue sv = none := by
  rw [recognizedSeverityValues] at h
  simp only [List.mem_cons, List.not_mem_nil, or_false, not_or] at h
  obtain ⟨h0, h10, h20, h30, h40, h50⟩ := h
  rw [levelOfValue]
  simp [h0, h10, h20, h30, h40, h50]

-- Claim theorems -----------------------------------------------------------

/-- Claim C1: for a named handle, `get_effective_level` returns the level
recorded in the registry at the first (longest) name of the ancestor
chain that carries a real, non-Unset entry — the search stops at the
first hit regardless of severity ordering — and when no name in the
chain has an entry it returns the process-wide default level rather
than failing. -/
theorem get_effective_level_nearest_ancestor (n : String) (r : Registry) :
    (∀ l1 a l2, ancestorChain n = l1 ++ a :: l2 →
      (∀ b ∈ l1, r.entries b = Level.Unset) →
      r.entries a ≠ Level.Unset →
      (Logger.named n).get_effective_level r = some (r.entries a)) ∧
    ((∀ b ∈ ancestorChain n, r.entries b = Level.Unset) →
      (Logger.named n).get_effective_level r = some r.default_level) := by
  constructor
  · intro l1 a l2 hchain hpref hne
    rw [get_effective_level_named]
    rw [hchain, lookupChain_append_unset r l1 (a :: l2) hpref]
    rw [lookupChain, if_neg hne]
  · intro hall
    rw [get_effective_level_named]
    rw [lookupChain_all_unset r (ancestorChain n) hall]

/-- Witness for C1, the scenario of spec section 8: with
`{"robot": Info, "robot.sensor": Debug}` and default `Warn`, the name
`robot.sensor.lidar` resolves to `Debug` (nearest explicit ancestor),
and with an empty registry any name resolves to the default `Warn`. -/
theorem get_effective_level_nearest_ancestor_witness :
    (Logger.named "robot.sensor.lidar").get_effective_level robotRegistry =
      some Level.Debug ∧
    (Logger.named "a.b").get_effective_level emptyRegistry =
      some Level.Warn := by
  constructor
  · have h := (get_effective_level_nearest_ancestor "robot.sensor.lidar"
      robotRegistry).1 ["robot.sensor.lidar"] "robot.sensor" ["robot"]
      (by rfl)
      (by intro b hb; simp only [List.mem_singleton] at hb; subst hb; rfl)
      (by decide)
    rw [h]
    rfl
  · have h := (get_effective_level_nearest_ancestor "a.b" emptyRegistry).2
      (by intro b _; rfl)
    rw [h]
    rfl

/-- Claim C2: with logging enabled, `get_logger(N).get_child(S)` is a
named handle whose name is exactly `N ++ "." ++ S` — plain concatenation,
no normalization or validation of `S` — and `get_child` takes and
returns no registry, so it registers nothing as a side effect. -/
theorem get_child_composes_name (N S : String) (_hS : S ≠ "") :
    ((get_logger true N).get_child S).get_name = some (N ++ "." ++ S) := by
  rfl

/-- Witness for C2, the example of the source's own doc comment:
`get_logger("abc").get_child("def")` has name `abc.def`. -/
theorem get_child_composes_name_witness :
    ((get_logger true "abc").get_child "def").get_name = some "abc.def" :=
  get_child_composes_name "abc" "def" (by decide)

/-- Claim C3: with logging enabled, `get_logger(N).get_name()` is exactly
`N` — the name is wrapped verbatim, no prefix or naming convention is
applied. -/
theorem get_logger_get_name (N : String) :
    (get_logger true N).get_name = some N := by
  rfl

/-- Claim C4: for a named handle and any raw severity value outside the
recognized enumeration, `set_level` fails with `InvalidArgument` and the
registry component of the result is the input registry, unchanged. -/
theorem set_level_invalid_severity (N : String) (sv : Int) (r : Registry)
    (h : sv ∉ recognizedSeverityValues) :
    (Logger.named N).set_level sv r =
      (Except.error SetLevelError.InvalidArgument, r) := by
  rw [Logger.set_level, levelOfValue_eq_none sv h]

/-- Witness for C4: severity value 7 is outside the enumeration, so
`set_level 7` on the handle named `x` fails with `InvalidArgument` and
returns the registry unchanged. -/
theorem set_level_invalid_severity_witness :
    (Logger.named "x").set_level 7 emptyRegistry =
      (Except.error SetLevelError.InvalidArgument, emptyRegistry) :=
  set_level_invalid_severity "x" 7 emptyRegistry (by decide)

/-- Claim C5: for any name `N` and recognized non-Unset level `L`,
`set_level` with `L`'s severity value succeeds, and immediately
afterwards `get_effective_level` on `N` returns `L`: the explicit entry
at the exact name dominates every ancestor entry and the default. -/
theorem set_level_get_effective_roundtrip (N : String) (L : Level)
    (r : Registry) (hL : L ≠ Level.Unset) :
    ((Logger.named N).set_level (severityValue L) r).1 = Except.ok () ∧
    (Logger.named N).get_effective_level
      (((Logger.named N).set_level (severityValue L) r).2) = some L := by
  have hset : (Logger.named N).set_level (severityValue L) r =
      (Except.ok (), r.set N L) := by
    rw [Logger.set_level, levelOfValue_severityValue]
    rfl
  refine ⟨by rw [hset], ?_⟩
  rw [hset]
  obtain ⟨rest, hchain⟩ := ancestorChain_head N
  rw [get_effective_level_named, hchain, lookupChain]
  have hN : (r.set N L).entries N = L := by
    rw [Registry.set]
    simp
  rw [hN, if_neg hL]

/-- Witness for C5: setting `Error` on the name `my.node` in the empty
registry succeeds, and the effective level of `my.node` is then
`Error`. -/
theorem set_level_get_effective_roundtrip_witness :
    ((Logger.named "my.node").set_level (severityValue Level.Error)
      emptyRegistry).1 = Except.ok () ∧
    (Logger.named "my.node").get_effective_level
      (((Logger.named "my.node").set_level (severityValue Level.Error)
        emptyRegistry).2) = some Level.Error :=
  set_level_get_effective_roundtrip "my.node" Level.Error emptyRegistry
    (by decide)

/-- Claim C6: `get_child` and `get_name` are total (they never fail on
any handle): on a dummy handle `get_child` yields another dummy handle
(the name stays absent), and on a named handle it yields the named
child — for every handle one of the two cases holds. -/
theorem get_child_dummy_propagates (l : Logger) (S : String) :
    ((Logger.dummy.get_child S).get_name = none ∧
      Logger.dummy.get_name = none) ∧
    (((l.get_child S).get_name = none ∧ l.get_name = none) ∨
      (∃ n, l.get_name = some n ∧
        (l.get_child S).get_name = some (n ++ "." ++ S))) := by
  refine ⟨⟨rfl, rfl⟩, ?_⟩
  rcases l with ⟨_ | ⟨n⟩, p⟩
  · exact Or.inl ⟨rfl, rfl⟩
  · exact Or.inr ⟨n, rfl, rfl⟩

/-- Claim C7: with logging disabled the factory returns the dummy handle
unconditionally, ignoring the name; with logging enabled it returns a
named handle wrapping the name verbatim. -/
theorem get_logger_disabled_dummy (N : String) :
    get_logger false N = Logger.dummy ∧
    (get_logger true N).get_name = some N :=
  ⟨rfl, rfl⟩

/-- Claim C8: no operation changes the receiver's observable name — the
handle's name, once constructed, never changes — and `get_child` on a
named handle produces a new, distinct handle (its name differs from the
receiver's) rather than mutating the receiver. -/
theorem handle_name_immutable (l : Logger) (r : Registry) (op : LoggerOp)
    (n S : String) :
    ((applyOp l r op).1).get_name = l.get_name ∧
    ((Logger.named n).get_child S).get_name ≠ some n := by
  constructor
  · cases op <;> rfl
  · intro h
    have heq : n ++ "." ++ S = n := by
      have := Option.some.inj h
      exact this
    have hlen := congrArg String.length heq
    rw [String.length_append, String.length_append] at hlen
    have hdot : ("." : String).length = 1 := rfl
    omega

/-- Witness for C8: the name of the handle named `a` is unchanged by a
`set_level` call, and its child `a.b` is a distinct handle. -/
theorem handle_name_immutable_witness :
    ((applyOp (Logger.named "a") emptyRegistry (LoggerOp.opSetLevel 20)).1).get_name
      = (Logger.named "a").get_name ∧
    ((Logger.named "a").get_child "b").get_name ≠ some "a" :=
  handle_name_immutable (Logger.named "a") emptyRegistry
    (LoggerOp.opSetLevel 20) "a" "b"

/-- Claim C9: the compile-time flag `RCLCPP_LOGGING_ENABLED` is defined,
with value 1, exactly when the build defines
`RCLCPP_LOGG_MIN_SEVERITY_NONE`; in a default build (that macro not
defined) the flag is left undefined, so this header does not enable
logging by default. -/
theorem logging_enabled_macro_iff :
    RCLCPP_LOGGING_ENABLED true = some 1 ∧
    RCLCPP_LOGGING_ENABLED false = none := by
  exact ⟨rfl, rfl⟩

/-- Claim C10: with logging enabled, `get_logger("")` is a non-dummy
handle whose name is the empty string, not an absent result; and
`get_name` is absent exactly on the handles produced by the dummy
constructor, so an empty name is always distinguishable from a dummy
handle. -/
theorem empty_name_not_dummy :
    (get_logger true "").get_name = some "" ∧
    (get_logger true "").get_name ≠ Logger.dummy.get_name ∧
    (∀ l : Logger, l.name_ = none → l.get_name = none) ∧
    (∀ l : Logger, l.get_name = none → l.name_ = none) := by
  refine ⟨rfl, by simp [get_logger, Logger.named, Logger.dummy, Logger.get_name], ?_, ?_⟩
  · intro l h
    rw [Logger.get_name, h]
  · intro l h
    rcases hl : l.name_ with _ | ⟨n⟩
    · rfl
    · rw [Logger.get_name, hl] at h
      exact absurd h (by simp)

/-- Witness for C10: the handle named `x` has a present name and is not
name-absent; the dummy handle's name is absent. -/
theorem empty_name_not_dummy_witness :
    (get_logger true "").get_name = some "" ∧
    Logger.dummy.get_name = none :=
  ⟨empty_name_not_dummy.1, empty_name_not_dummy.2.2.1 Logger.dummy rfl⟩
